import Mathlib

/-!
Verification of the scan-registration configuration and IMU-state logic of
`src/src/lib/ScanRegistration.h` (loam_velodyne). C++ `int` is modelled as
`Int`; the C++ `float` configuration values are modelled as exact rationals
(the source only compares and stores them); IMU angles, positions and
velocities are modelled as real numbers.
-/

namespace Loam

/-- Point label options, from `ScanRegistration.h` lines 53-58. -/
inductive PointLabel where
  | CORNER_SHARP
  | CORNER_LESS_SHARP
  | SURFACE_LESS_FLAT
  | SURFACE_FLAT
deriving DecidableEq

/-- The numeric value the C++ enum assigns to each `PointLabel` constant. -/
def PointLabel.value : PointLabel → ℤ
  | .CORNER_SHARP => 2
  | .CORNER_LESS_SHARP => 1
  | .SURFACE_LESS_FLAT => 0
  | .SURFACE_FLAT => -1

/-- Scan registration configuration parameters, from `ScanRegistration.h`
lines 63-99. -/
structure RegistrationParams where
  nFeatureRegions : ℤ
  curvatureRegion : ℤ
  maxCornerSharp : ℤ
  maxCornerLessSharp : ℤ
  maxSurfaceFlat : ℤ
  lessFlatFilterSize : ℚ
  surfaceCurvatureThreshold : ℚ
deriving DecidableEq

/-- The `RegistrationParams` constructor (`ScanRegistration.h` lines 64-76):
every argument is stored verbatim and `maxCornerLessSharp` is initialised to
`10 * maxCornerSharp_`. -/
def mkRegistrationParams (nFeatureRegions_ curvatureRegion_ maxCornerSharp_
    maxSurfaceFlat_ : ℤ) (lessFlatFilterSize_ surfaceCurvatureThreshold_ : ℚ) :
    RegistrationParams :=
  { nFeatureRegions := nFeatureRegions_
    curvatureRegion := curvatureRegion_
    maxCornerSharp := maxCornerSharp_
    maxCornerLessSharp := 10 * maxCornerSharp_
    maxSurfaceFlat := maxSurfaceFlat_
    lessFlatFilterSize := lessFlatFilterSize_
    surfaceCurvatureThreshold := surfaceCurvatureThreshold_ }

/-- A `RegistrationParams` built with all constructor defaults
(`ScanRegistration.h` lines 64-69). -/
def defaultRegistrationParams : RegistrationParams :=
  mkRegistrationParams 6 5 2 4 0.2 0.1

/-- The view of a ROS node handle that `parseParams` reads: for each of the
seven recognised parameter names, either `none` (parameter not specified,
`nh.getParam` returns false) or `some v` (specified with value `v`). -/
structure NodeHandle where
  featureRegions : Option ℤ
  curvatureRegion : Option ℤ
  maxCornerSharp : Option ℤ
  maxCornerLessSharp : Option ℤ
  maxSurfaceFlat : Option ℤ
  surfaceCurvatureThreshold : Option ℚ
  lessFlatFilterSize : Option ℚ
deriving DecidableEq

/-- The `featureRegions` block of `parseParams` (`ScanRegistration.h` lines
112-119), acting on the (params, success) state. -/
def parseFeatureRegions (nh : NodeHandle) (st : RegistrationParams × Bool) :
    RegistrationParams × Bool :=
  match nh.featureRegions with
  | none => st
  | some iParam =>
      if iParam < 1 then (st.1, false)
      else ({ st.1 with nFeatureRegions := iParam }, st.2)

/-- The `curvatureRegion` block of `parseParams` (lines 121-128). -/
def parseCurvatureRegion (nh : NodeHandle) (st : RegistrationParams × Bool) :
    RegistrationParams × Bool :=
  match nh.curvatureRegion with
  | none => st
  | some iParam =>
      if iParam < 1 then (st.1, false)
      else ({ st.1 with curvatureRegion := iParam }, st.2)

/-- The `maxCornerSharp` block of `parseParams` (lines 130-138): a valid value
also overwrites `maxCornerLessSharp` with ten times that value. -/
def parseMaxCornerSharp (nh : NodeHandle) (st : RegistrationParams × Bool) :
    RegistrationParams × Bool :=
  match nh.maxCornerSharp with
  | none => st
  | some iParam =>
      if iParam < 1 then (st.1, false)
      else ({ st.1 with maxCornerSharp := iParam,
                        maxCornerLessSharp := 10 * iParam }, st.2)

/-- The `maxCornerLessSharp` block of `parseParams` (lines 140-147): the value
is checked against the `maxCornerSharp` field as it stands at this point of
the call. -/
def parseMaxCornerLessSharp (nh : NodeHandle) (st : RegistrationParams × Bool) :
    RegistrationParams × Bool :=
  match nh.maxCornerLessSharp with
  | none => st
  | some iParam =>
      if iParam < st.1.maxCornerSharp then (st.1, false)
      else ({ st.1 with maxCornerLessSharp := iParam }, st.2)

/-- The `maxSurfaceFlat` block of `parseParams` (lines 149-156). -/
def parseMaxSurfaceFlat (nh : NodeHandle) (st : RegistrationParams × Bool) :
    RegistrationParams × Bool :=
  match nh.maxSurfaceFlat with
  | none => st
  | some iParam =>
      if iParam < 1 then (st.1, false)
      else ({ st.1 with maxSurfaceFlat := iParam }, st.2)

/-- The `surfaceCurvatureThreshold` block of `parseParams` (lines 158-165). -/
def parseSurfaceCurvatureThreshold (nh : NodeHandle)
    (st : RegistrationParams × Bool) : RegistrationParams × Bool :=
  match nh.surfaceCurvatureThreshold with
  | none => st
  | some fParam =>
      if fParam < 0.001 then (st.1, false)
      else ({ st.1 with surfaceCurvatureThreshold := fParam }, st.2)

/-- The `lessFlatFilterSize` block of `parseParams` (lines 167-174). -/
def parseLessFlatFilterSize (nh : NodeHandle)
    (st : RegistrationParams × Bool) : RegistrationParams × Bool :=
  match nh.lessFlatFilterSize with
  | none => st
  | some fParam =>
      if fParam < 0.001 then (st.1, false)
      else ({ st.1 with lessFlatFilterSize := fParam }, st.2)

/-- `RegistrationParams::parseParams` (`ScanRegistration.h` lines 107-177):
starting from the current parameters and `success = true`, the seven blocks
run in source order; the call returns the updated parameters and the final
`success` flag. -/
def RegistrationParams.parseParams (p : RegistrationParams) (nh : NodeHandle) :
    RegistrationParams × Bool :=
  parseLessFlatFilterSize nh
    (parseSurfaceCurvatureThreshold nh
      (parseMaxSurfaceFlat nh
        (parseMaxCornerLessSharp nh
          (parseMaxCornerSharp nh
            (parseCurvatureRegion nh
              (parseFeatureRegions nh (p, true)))))))

/-- The value the `maxCornerSharp` field holds when the `maxCornerLessSharp`
block checks its parameter: the newly parsed value if one was specified and
valid, otherwise the value `cur` it held on entry. -/
def effectiveMaxCornerSharp (cur : ℤ) (nh : NodeHandle) : ℤ :=
  match nh.maxCornerSharp with
  | none => cur
  | some v => if v < 1 then cur else v

/-- Every parameter specified on the node handle satisfies its documented
range; the `maxCornerLessSharp` bound is the `maxCornerSharp` value in effect
when that block runs. -/
def allSpecifiedParamsValid (p : RegistrationParams) (nh : NodeHandle) : Prop :=
  (∀ v, nh.featureRegions = some v → 1 ≤ v) ∧
  (∀ v, nh.curvatureRegion = some v → 1 ≤ v) ∧
  (∀ v, nh.maxCornerSharp = some v → 1 ≤ v) ∧
  (∀ v, nh.maxCornerLessSharp = some v →
    effectiveMaxCornerSharp p.maxCornerSharp nh ≤ v) ∧
  (∀ v, nh.maxSurfaceFlat = some v → 1 ≤ v) ∧
  (∀ v, nh.surfaceCurvatureThreshold = some v → (0.001 : ℚ) ≤ v) ∧
  (∀ v, nh.lessFlatFilterSize = some v → (0.001 : ℚ) ≤ v)

/-- A node handle with no parameter specified. -/
def emptyNodeHandle : NodeHandle :=
  ⟨none, none, none, none, none, none, none⟩

/-- Node handle with a valid `featureRegions` and an invalid
`curvatureRegion`, all other parameters unspecified. -/
def nhMixedValidity : NodeHandle :=
  { emptyNodeHandle with featureRegions := some 7, curvatureRegion := some 0 }

/-- Node handle specifying `maxCornerSharp = 5` and `maxCornerLessSharp = 3`,
all other parameters unspecified. -/
def nhCornerPair : NodeHandle :=
  { emptyNodeHandle with maxCornerSharp := some 5,
                         maxCornerLessSharp := some 3 }

/-- A 3D vector, modelling the `Vector3` of `math_utils.h` (held by value in
`IMUState`); floats are modelled by the field `α`. -/
structure Vector3 (α : Type) where
  x : α
  y : α
  z : α

/-- Componentwise vector addition. -/
def Vector3.add {α : Type} [CommRing α] (a b : Vector3 α) :
    Vector3 α :=
  ⟨a.x + b.x, a.y + b.y, a.z + b.z⟩

/-- Vector times scalar, as written `v * s` in the source. -/
def Vector3.scale {α : Type} [CommRing α] (a : Vector3 α) (s : α) :
    Vector3 α :=
  ⟨a.x * s, a.y * s, a.z * s⟩

/-- The zero vector. -/
def Vector3.zero {α : Type} [CommRing α] : Vector3 α := ⟨0, 0, 0⟩

/-- IMU state data, from `ScanRegistration.h` lines 196-217. The `Angle`
fields (`math_utils.h`, not part of the analysed sources) are modelled by
their radian value; `ros::Time` by a scalar stamp. -/
structure IMUState (α : Type) where
  stamp : α
  roll : α
  pitch : α
  yaw : α
  position : Vector3 α
  velocity : Vector3 α
  acceleration : Vector3 α

/-- `IMUState::interpolate` (`ScanRegistration.h` lines 225-244), written as a
function from the prior contents of `result` to its new contents. The C++
constant `M_PI` is the parameter `pi` (instantiated with `Real.pi` over ℝ). -/
def IMUState.interpolate {α : Type} [LinearOrderedField α] (pi : α)
    (start endS : IMUState α) (ratio : α) (result : IMUState α) : IMUState α :=
  let invRatio := 1 - ratio
  { result with
    roll := start.roll * invRatio + endS.roll * ratio
    pitch := start.pitch * invRatio + endS.pitch * ratio
    yaw :=
      if start.yaw - endS.yaw > pi then
        start.yaw * invRatio + (endS.yaw + 2 * pi) * ratio
      else if start.yaw - endS.yaw < -pi then
        start.yaw * invRatio + (endS.yaw - 2 * pi) * ratio
      else
        start.yaw * invRatio + endS.yaw * ratio
    velocity := Vector3.add (Vector3.scale start.velocity invRatio)
      (Vector3.scale endS.velocity ratio)
    position := Vector3.add (Vector3.scale start.position invRatio)
      (Vector3.scale endS.position ratio) }

/-- An IMU state over the reals with the given yaw and all other fields
zero, used to build concrete inputs. -/
def withYaw (y : ℝ) : IMUState ℝ :=
  ⟨0, 0, 0, y, Vector3.zero, Vector3.zero, Vector3.zero⟩

/-- Modelled from the spec: `CircularBuffer.h` is not among the analysed
sources. The spec describes the inertial history as a bounded sequence with a
fixed capacity, oldest element evicted on overflow; only the capacity matters
for the claims below. -/
structure CircularBuffer (T : Type) where
  capacity : ℕ
  elements : List T

/-- The state of a `ScanRegistration` object relevant to construction:
configuration and IMU history (`ScanRegistration.h` lines 365-373). -/
structure ScanRegistrationState where
  nScans : ℕ
  scanPeriod : ℚ
  config : RegistrationParams
  imuHistory : CircularBuffer (IMUState ℝ)

/-- The default value of the `imuHistorySize` constructor argument
(`ScanRegistration.h` line 259). -/
def scanRegistrationDefaultImuHistorySize : ℕ := 200

/-- The default value of the `nScans` constructor argument (line 258). -/
def scanRegistrationDefaultNScans : ℕ := 0

/-- Modelled from the spec: the `ScanRegistration` constructor body lives in
`ScanRegistration.cpp`, which is not among the analysed sources. Per the spec,
the bounded inertial history is created with capacity `imuHistorySize`; the
declared defaults of the header (lines 257-260) are the definitions above. -/
def mkScanRegistration (scanPeriod : ℚ) (nScans : ℕ) (imuHistorySize : ℕ)
    (config : RegistrationParams) : ScanRegistrationState :=
  ⟨nScans, scanPeriod, config, ⟨imuHistorySize, []⟩⟩

/-- A `ScanRegistration` constructed passing only `scanPeriod`, every other
argument left at its declared default. -/
def mkScanRegistrationDefault (scanPeriod : ℚ) : ScanRegistrationState :=
  mkScanRegistration scanPeriod scanRegistrationDefaultNScans
    scanRegistrationDefaultImuHistorySize defaultRegistrationParams

/-- Success flag after the `featureRegions` block: prior flag, and the
parameter (when specified) is at least 1. -/
theorem parseFeatureRegions_snd (nh : NodeHandle) (st : RegistrationParams × Bool) :
    (parseFeatureRegions nh st).2 = true ↔
      (st.2 = true ∧ ∀ v, nh.featureRegions = some v → 1 ≤ v) := by
  cases h : nh.featureRegions with
  | none => simp [parseFeatureRegions, h]
  | some v =>
      by_cases hv : v < 1
      · simp [parseFeatureRegions, h, hv, not_le.mpr hv]
      · simp [parseFeatureRegions, h, hv, not_lt.mp hv]

/-- Success flag after the `curvatureRegion` block. -/
theorem parseCurvatureRegion_snd (nh : NodeHandle) (st : RegistrationParams × Bool) :
    (parseCurvatureRegion nh st).2 = true ↔
      (st.2 = true ∧ ∀ v, nh.curvatureRegion = some v → 1 ≤ v) := by
  cases h : nh.curvatureRegion with
  | none => simp [parseCurvatureRegion, h]
  | some v =>
      by_cases hv : v < 1
      · simp [parseCurvatureRegion, h, hv, not_le.mpr hv]
      · simp [parseCurvatureRegion, h, hv, not_lt.mp hv]

/-- Success flag after the `maxCornerSharp` block. -/
theorem parseMaxCornerSharp_snd (nh : NodeHandle) (st : RegistrationParams × Bool) :
    (parseMaxCornerSharp nh st).2 = true ↔
      (st.2 = true ∧ ∀ v, nh.maxCornerSharp = some v → 1 ≤ v) := by
  cases h : nh.maxCornerSharp with
  | none => simp [parseMaxCornerSharp, h]
  | some v =>
      by_cases hv : v < 1
      · simp [parseMaxCornerSharp, h, hv, not_le.mpr hv]
      · simp [parseMaxCornerSharp, h, hv, not_lt.mp hv]

/-- Success flag after the `maxCornerLessSharp` block: the bound is the
`maxCornerSharp` field of the incoming state. -/
theorem parseMaxCornerLessSharp_snd (nh : NodeHandle) (st : RegistrationParams × Bool) :
    (parseMaxCornerLessSharp nh st).2 = true ↔
      (st.2 = true ∧ ∀ v, nh.maxCornerLessSharp = some v → st.1.maxCornerSharp ≤ v) := by
  cases h : nh.maxCornerLessSharp with
  | none => simp [parseMaxCornerLessSharp, h]
  | some v =>
      by_cases hv : v < st.1.maxCornerSharp
      · simp [parseMaxCornerLessSharp, h, hv, not_le.mpr hv]
      · simp [parseMaxCornerLessSharp, h, hv, not_lt.mp hv]

/-- Success flag after the `maxSurfaceFlat` block. -/
theorem parseMaxSurfaceFlat_snd (nh : NodeHandle) (st : RegistrationParams × Bool) :
    (parseMaxSurfaceFlat nh st).2 = true ↔
      (st.2 = true ∧ ∀ v, nh.maxSurfaceFlat = some v → 1 ≤ v) := by
  cases h : nh.maxSurfaceFlat with
  | none => simp [parseMaxSurfaceFlat, h]
  | some v =>
      by_cases hv : v < 1
      · simp [parseMaxSurfaceFlat, h, hv, not_le.mpr hv]
      · simp [parseMaxSurfaceFlat, h, hv, not_lt.mp hv]

/-- Success flag after the `surfaceCurvatureThreshold` block. -/
theorem parseSurfaceCurvatureThreshold_snd (nh : NodeHandle)
    (st : RegistrationParams × Bool) :
    (parseSurfaceCurvatureThreshold nh st).2 = true ↔
      (st.2 = true ∧ ∀ v, nh.surfaceCurvatureThreshold = some v → (0.001 : ℚ) ≤ v) := by
  cases h : nh.surfaceCurvatureThreshold with
  | none => simp [parseSurfaceCurvatureThreshold, h]
  | some v =>
      by_cases hv : v < 0.001
      · simp [parseSurfaceCurvatureThreshold, h, hv, not_le.mpr hv]
      · simp [parseSurfaceCurvatureThreshold, h, hv, not_lt.mp hv]

/-- Success flag after the `lessFlatFilterSize` block. -/
theorem parseLessFlatFilterSize_snd (nh : NodeHandle)
    (st : RegistrationParams × Bool) :
    (parseLessFlatFilterSize nh st).2 = true ↔
      (st.2 = true ∧ ∀ v, nh.lessFlatFilterSize = some v → (0.001 : ℚ) ≤ v) := by
  cases h : nh.lessFlatFilterSize with
  | none => simp [parseLessFlatFilterSize, h]
  | some v =>
      by_cases hv : v < 0.001
      · simp [parseLessFlatFilterSize, h, hv, not_le.mpr hv]
      · simp [parseLessFlatFilterSize, h, hv, not_lt.mp hv]

/-- The `featureRegions` block leaves both corner bounds unchanged. -/
theorem parseFeatureRegions_preserves (nh : NodeHandle) (st : RegistrationParams × Bool) :
    (parseFeatureRegions nh st).1.maxCornerSharp = st.1.maxCornerSharp ∧
    (parseFeatureRegions nh st).1.maxCornerLessSharp = st.1.maxCornerLessSharp := by
  cases h : nh.featureRegions with
  | none => simp [parseFeatureRegions, h]
  | some v => by_cases hv : v < 1 <;> simp [parseFeatureRegions, h, hv]

/-- The `curvatureRegion` block leaves the other tracked fields unchanged. -/
theorem parseCurvatureRegion_preserves (nh : NodeHandle) (st : RegistrationParams × Bool) :
    (parseCurvatureRegion nh st).1.nFeatureRegions = st.1.nFeatureRegions ∧
    (parseCurvatureRegion nh st).1.maxCornerSharp = st.1.maxCornerSharp ∧
    (parseCurvatureRegion nh st).1.maxCornerLessSharp = st.1.maxCornerLessSharp := by
  cases h : nh.curvatureRegion with
  | none => simp [parseCurvatureRegion, h]
  | some v => by_cases hv : v < 1 <;> simp [parseCurvatureRegion, h, hv]

/-- The `maxCornerSharp` block leaves `nFeatureRegions` unchanged. -/
theorem parseMaxCornerSharp_preserves (nh : NodeHandle) (st : RegistrationParams × Bool) :
    (parseMaxCornerSharp nh st).1.nFeatureRegions = st.1.nFeatureRegions := by
  cases h : nh.maxCornerSharp with
  | none => simp [parseMaxCornerSharp, h]
  | some v => by_cases hv : v < 1 <;> simp [parseMaxCornerSharp, h, hv]

/-- The `maxCornerLessSharp` block leaves `nFeatureRegions` and
`maxCornerSharp` unchanged. -/
theorem parseMaxCornerLessSharp_preserves (nh : NodeHandle) (st : RegistrationParams × Bool) :
    (parseMaxCornerLessSharp nh st).1.nFeatureRegions = st.1.nFeatureRegions ∧
    (parseMaxCornerLessSharp nh st).1.maxCornerSharp = st.1.maxCornerSharp := by
  cases h : nh.maxCornerLessSharp with
  | none => simp [parseMaxCornerLessSharp, h]
  | some v => by_cases hv : v < st.1.maxCornerSharp <;> simp [parseMaxCornerLessSharp, h, hv]

/-- The `maxSurfaceFlat` block leaves the tracked fields unchanged. -/
theorem parseMaxSurfaceFlat_preserves (nh : NodeHandle) (st : RegistrationParams × Bool) :
    (parseMaxSurfaceFlat nh st).1.nFeatureRegions = st.1.nFeatureRegions ∧
    (parseMaxSurfaceFlat nh st).1.maxCornerSharp = st.1.maxCornerSharp ∧
    (parseMaxSurfaceFlat nh st).1.maxCornerLessSharp = st.1.maxCornerLessSharp := by
  cases h : nh.maxSurfaceFlat with
  | none => simp [parseMaxSurfaceFlat, h]
  | some v => by_cases hv : v < 1 <;> simp [parseMaxSurfaceFlat, h, hv]

/-- The `surfaceCurvatureThreshold` block leaves the tracked fields
unchanged. -/
theorem parseSurfaceCurvatureThreshold_preserves (nh : NodeHandle)
    (st : RegistrationParams × Bool) :
    (parseSurfaceCurvatureThreshold nh st).1.nFeatureRegions = st.1.nFeatureRegions ∧
    (parseSurfaceCurvatureThreshold nh st).1.maxCornerSharp = st.1.maxCornerSharp ∧
    (parseSurfaceCurvatureThreshold nh st).1.maxCornerLessSharp = st.1.maxCornerLessSharp := by
  cases h : nh.surfaceCurvatureThreshold with
  | none => simp [parseSurfaceCurvatureThreshold, h]
  | some v => by_cases hv : v < 0.001 <;> simp [parseSurfaceCurvatureThreshold, h, hv]

/-- The `lessFlatFilterSize` block leaves the tracked fields unchanged. -/
theorem parseLessFlatFilterSize_preserves (nh : NodeHandle)
    (st : RegistrationParams × Bool) :
    (parseLessFlatFilterSize nh st).1.nFeatureRegions = st.1.nFeatureRegions ∧
    (parseLessFlatFilterSize nh st).1.maxCornerSharp = st.1.maxCornerSharp ∧
    (parseLessFlatFilterSize nh st).1.maxCornerLessSharp = st.1.maxCornerLessSharp := by
  cases h : nh.lessFlatFilterSize with
  | none => simp [parseLessFlatFilterSize, h]
  | some v => by_cases hv : v < 0.001 <;> simp [parseLessFlatFilterSize, h, hv]

/-- After the `maxCornerSharp` block, the `maxCornerSharp` field holds the
effective value. -/
theorem parseMaxCornerSharp_fst_value (nh : NodeHandle) (st : RegistrationParams × Bool) :
    (parseMaxCornerSharp nh st).1.maxCornerSharp
      = effectiveMaxCornerSharp st.1.maxCornerSharp nh := by
  cases h : nh.maxCornerSharp with
  | none => simp [parseMaxCornerSharp, effectiveMaxCornerSharp, h]
  | some v =>
      by_cases hv : v < 1 <;>
        simp [parseMaxCornerSharp, effectiveMaxCornerSharp, h, hv]

/-- Master characterisation of the success flag: `parseParams` returns true
exactly when every specified parameter is valid. -/
theorem parseParams_success_iff (p : RegistrationParams) (nh : NodeHandle) :
    (p.parseParams nh).2 = true ↔ allSpecifiedParamsValid p nh := by
  have hmcs :
      (parseMaxCornerSharp nh
        (parseCurvatureRegion nh
          (parseFeatureRegions nh (p, true)))).1.maxCornerSharp
        = effectiveMaxCornerSharp p.maxCornerSharp nh := by
    rw [parseMaxCornerSharp_fst_value,
      (parseCurvatureRegion_preserves nh _).2.1,
      (parseFeatureRegions_preserves nh _).1]
  rw [RegistrationParams.parseParams, parseLessFlatFilterSize_snd,
    parseSurfaceCurvatureThreshold_snd, parseMaxSurfaceFlat_snd,
    parseMaxCornerLessSharp_snd, parseMaxCornerSharp_snd,
    parseCurvatureRegion_snd, parseFeatureRegions_snd, hmcs,
    allSpecifiedParamsValid]
  tauto

/-- A specified, valid `featureRegions` value is applied by `parseParams`,
whatever the other parameters do. -/
theorem parseParams_nFeatureRegions_valid (p : RegistrationParams)
    (nh : NodeHandle) (v : ℤ) (h : nh.featureRegions = some v) (hv : 1 ≤ v) :
    (p.parseParams nh).1.nFeatureRegions = v := by
  rw [RegistrationParams.parseParams,
    (parseLessFlatFilterSize_preserves nh _).1,
    (parseSurfaceCurvatureThreshold_preserves nh _).1,
    (parseMaxSurfaceFlat_preserves nh _).1,
    (parseMaxCornerLessSharp_preserves nh _).1,
    parseMaxCornerSharp_preserves nh _,
    (parseCurvatureRegion_preserves nh _).1]
  simp [parseFeatureRegions, h, not_lt.mpr hv]

/-- A specified, invalid `featureRegions` value is not applied: the field
keeps its prior value. -/
theorem parseParams_nFeatureRegions_invalid (p : RegistrationParams)
    (nh : NodeHandle) (v : ℤ) (h : nh.featureRegions = some v) (hv : v < 1) :
    (p.parseParams nh).1.nFeatureRegions = p.nFeatureRegions := by
  rw [RegistrationParams.parseParams,
    (parseLessFlatFilterSize_preserves nh _).1,
    (parseSurfaceCurvatureThreshold_preserves nh _).1,
    (parseMaxSurfaceFlat_preserves nh _).1,
    (parseMaxCornerLessSharp_preserves nh _).1,
    parseMaxCornerSharp_preserves nh _,
    (parseCurvatureRegion_preserves nh _).1]
  simp [parseFeatureRegions, h, hv]

/-- With a valid specified `maxCornerSharp`, the block overwrites
`maxCornerLessSharp` with ten times the new value. -/
theorem parseMaxCornerSharp_overwrite (nh : NodeHandle)
    (st : RegistrationParams × Bool) (v : ℤ) (h : nh.maxCornerSharp = some v)
    (hv : 1 ≤ v) :
    (parseMaxCornerSharp nh st).1.maxCornerSharp = v ∧
    (parseMaxCornerSharp nh st).1.maxCornerLessSharp = 10 * v := by
  simp [parseMaxCornerSharp, h, not_lt.mpr hv]

/-- The `maxCornerLessSharp` field produced by `parseParams`, given a valid
specified `maxCornerSharp` value `v`: `10 * v` when `maxCornerLessSharp` is
unspecified or below `v`, the specified value when it is at least `v`. -/
theorem parseParams_maxCornerLessSharp_value (p : RegistrationParams)
    (nh : NodeHandle) (v : ℤ) (h : nh.maxCornerSharp = some v) (hv : 1 ≤ v) :
    (p.parseParams nh).1.maxCornerLessSharp
      = (match nh.maxCornerLessSharp with
         | none => 10 * v
         | some u => if u < v then 10 * v else u) := by
  have h3 := parseMaxCornerSharp_overwrite nh
    (parseCurvatureRegion nh (parseFeatureRegions nh (p, true))) v h hv
  rw [RegistrationParams.parseParams,
    (parseLessFlatFilterSize_preserves nh _).2.2,
    (parseSurfaceCurvatureThreshold_preserves nh _).2.2,
    (parseMaxSurfaceFlat_preserves nh _).2.2]
  cases hml : nh.maxCornerLessSharp with
  | none => simp [parseMaxCornerLessSharp, hml, h3.2]
  | some u =>
      by_cases hu : u < v
      · have : u < (parseMaxCornerSharp nh
            (parseCurvatureRegion nh (parseFeatureRegions nh (p, true)))).1.maxCornerSharp := by
          rw [h3.1]; exact hu
        simp [parseMaxCornerLessSharp, hml, this, h3.2, hu]
      · have : ¬ u < (parseMaxCornerSharp nh
            (parseCurvatureRegion nh (parseFeatureRegions nh (p, true)))).1.maxCornerSharp := by
          rw [h3.1]; exact hu
        simp [parseMaxCornerLessSharp, hml, this, hu]

/-- C1 (counterexample): the configuration update is not atomic. With the
prior defaults, a node handle specifying a valid `featureRegions = 7`
together with an invalid `curvatureRegion = 0` makes `parseParams` return
false, yet `nFeatureRegions` is changed from its prior value 6 to 7. -/
theorem parseParams_not_atomic_counterexample :
    (defaultRegistrationParams.parseParams nhMixedValidity).2 = false ∧
    (defaultRegistrationParams.parseParams nhMixedValidity).1.nFeatureRegions = 7 ∧
    defaultRegistrationParams.nFeatureRegions = 6 := by decide

/-- C1 (amended): if at least one specified parameter violates its range,
`parseParams` returns false, but the update is not rejected atomically: a
field whose specified value was individually valid can still be updated. In
particular a specified `featureRegions` of at least 1 is always applied, and
a specified `featureRegions` below 1 leaves `nFeatureRegions` at its prior
value. -/
theorem parseParams_invalid_returns_false (p : RegistrationParams)
    (nh : NodeHandle) (h : ¬ allSpecifiedParamsValid p nh) :
    (p.parseParams nh).2 = false ∧
    (∀ v, nh.featureRegions = some v → 1 ≤ v →
      (p.parseParams nh).1.nFeatureRegions = v) ∧
    (∀ v, nh.featureRegions = some v → v < 1 →
      (p.parseParams nh).1.nFeatureRegions = p.nFeatureRegions) := by
  refine ⟨?_, fun v hv h1 => parseParams_nFeatureRegions_valid p nh v hv h1,
    fun v hv h1 => parseParams_nFeatureRegions_invalid p nh v hv h1⟩
  cases hb : (p.parseParams nh).2 with
  | false => rfl
  | true => exact absurd ((parseParams_success_iff p nh).mp hb) h

/-- C1 (witness): the amended statement applied to the defaults and the
mixed-validity node handle. -/
theorem parseParams_invalid_returns_false_witness :
    (defaultRegistrationParams.parseParams nhMixedValidity).2 = false ∧
    (defaultRegistrationParams.parseParams nhMixedValidity).1.nFeatureRegions = 7 :=
  have h : ¬ allSpecifiedParamsValid defaultRegistrationParams nhMixedValidity :=
    fun hval => absurd (hval.2.1 0 rfl) (by decide)
  ⟨(parseParams_invalid_returns_false _ _ h).1,
   (parseParams_invalid_returns_false _ _ h).2.1 7 rfl (by decide)⟩

/-- C2: `parseParams` returns true exactly when every specified parameter
satisfies its range (`featureRegions`, `curvatureRegion`, `maxCornerSharp`,
`maxSurfaceFlat` at least 1, `maxCornerLessSharp` at least the
`maxCornerSharp` value in effect at its check, the two thresholds at least
0.001); an unspecified parameter never causes failure. -/
theorem parseParams_true_iff_valid (p : RegistrationParams) (nh : NodeHandle) :
    (p.parseParams nh).2 = true ↔ allSpecifiedParamsValid p nh :=
  parseParams_success_iff p nh

/-- C6: a default-constructed `RegistrationParams` has the documented default
values, with `maxCornerLessSharp = 10 * maxCornerSharp = 20`. -/
theorem defaultRegistrationParams_values :
    defaultRegistrationParams.nFeatureRegions = 6 ∧
    defaultRegistrationParams.curvatureRegion = 5 ∧
    defaultRegistrationParams.maxCornerSharp = 2 ∧
    defaultRegistrationParams.maxCornerLessSharp = 20 ∧
    defaultRegistrationParams.maxSurfaceFlat = 4 ∧
    defaultRegistrationParams.surfaceCurvatureThreshold = 0.1 ∧
    defaultRegistrationParams.lessFlatFilterSize = 0.2 :=
  ⟨rfl, rfl, rfl, rfl, rfl, rfl, rfl⟩

/-- C7: the `PointLabel` enumeration assigns exactly the values 2, 1, 0, -1
to `CORNER_SHARP`, `CORNER_LESS_SHARP`, `SURFACE_LESS_FLAT`, `SURFACE_FLAT`. -/
theorem pointLabel_values :
    PointLabel.value .CORNER_SHARP = 2 ∧
    PointLabel.value .CORNER_LESS_SHARP = 1 ∧
    PointLabel.value .SURFACE_LESS_FLAT = 0 ∧
    PointLabel.value .SURFACE_FLAT = -1 := by decide

/-- C8: a `ScanRegistration` constructed without an explicit `imuHistorySize`
argument creates its IMU history with capacity 200. -/
theorem scanRegistration_default_history_capacity (scanPeriod : ℚ) :
    (mkScanRegistrationDefault scanPeriod).imuHistory.capacity = 200 := rfl

/-- C9: a valid specified `maxCornerSharp = v` overwrites
`maxCornerLessSharp` to `10 * v` in the same call; a specified
`maxCornerLessSharp = u` takes effect only because its block runs afterwards,
and its validity check compares `u` against the just-updated value `v` (for
any prior configuration `p`), not against the prior `maxCornerSharp`. -/
theorem parseParams_maxCornerSharp_overwrites (p : RegistrationParams)
    (nh : NodeHandle) (v : ℤ) (hms : nh.maxCornerSharp = some v) (hv : 1 ≤ v) :
    (nh.maxCornerLessSharp = none →
      (p.parseParams nh).1.maxCornerLessSharp = 10 * v) ∧
    (∀ u, nh.maxCornerLessSharp = some u →
      (v ≤ u → (p.parseParams nh).1.maxCornerLessSharp = u) ∧
      (u < v → (p.parseParams nh).1.maxCornerLessSharp = 10 * v ∧
        (p.parseParams nh).2 = false)) := by
  have hval := parseParams_maxCornerLessSharp_value p nh v hms hv
  refine ⟨fun hml => by rw [hval, hml], fun u hml => ⟨fun huv => ?_, fun huv => ⟨?_, ?_⟩⟩⟩
  · rw [hval, hml]; simp [not_lt.mpr huv]
  · rw [hval, hml]; simp [huv]
  · cases hb : (p.parseParams nh).2 with
    | false => rfl
    | true =>
        have hall := (parseParams_success_iff p nh).mp hb
        have heff : effectiveMaxCornerSharp p.maxCornerSharp nh = v := by
          simp [effectiveMaxCornerSharp, hms, not_lt.mpr hv]
        have := hall.2.2.2.1 u hml
        rw [heff] at this
        exact absurd this (not_le.mpr huv)

/-- C9 (witness): prior defaults have `maxCornerSharp = 2`; specifying
`maxCornerSharp = 5` and `maxCornerLessSharp = 3` (which is at least the
prior 2 but below the new 5) is rejected and leaves the overwritten value
50. -/
theorem parseParams_maxCornerSharp_overwrites_witness :
    (defaultRegistrationParams.parseParams nhCornerPair).1.maxCornerLessSharp = 50 ∧
    (defaultRegistrationParams.parseParams nhCornerPair).2 = false ∧
    defaultRegistrationParams.maxCornerSharp ≤ 3 :=
  have h := (parseParams_maxCornerSharp_overwrites defaultRegistrationParams
    nhCornerPair 5 rfl (by decide)).2 3 rfl
  have h2 := h.2 (by decide)
  ⟨by rw [h2.1]; decide, h2.2, by decide⟩

/-- C10: the `RegistrationParams` constructor performs no range validation:
every argument is stored verbatim and `maxCornerLessSharp` is set to
`10 * maxCornerSharp_`; in particular `nFeatureRegions = 0` and a negative
`maxCornerSharp_` (yielding a negative `maxCornerLessSharp`) can be
constructed directly. -/
theorem mkRegistrationParams_no_validation :
    (∀ (a b c d : ℤ) (e f : ℚ),
      (mkRegistrationParams a b c d e f).nFeatureRegions = a ∧
      (mkRegistrationParams a b c d e f).curvatureRegion = b ∧
      (mkRegistrationParams a b c d e f).maxCornerSharp = c ∧
      (mkRegistrationParams a b c d e f).maxCornerLessSharp = 10 * c ∧
      (mkRegistrationParams a b c d e f).maxSurfaceFlat = d ∧
      (mkRegistrationParams a b c d e f).lessFlatFilterSize = e ∧
      (mkRegistrationParams a b c d e f).surfaceCurvatureThreshold = f) ∧
    ((mkRegistrationParams 0 5 (-1) 4 0.2 0.1).nFeatureRegions = 0 ∧
     (mkRegistrationParams 0 5 (-1) 4 0.2 0.1).maxCornerSharp = -1 ∧
     (mkRegistrationParams 0 5 (-1) 4 0.2 0.1).maxCornerLessSharp = -10) :=
  ⟨fun _ _ _ _ _ _ => ⟨rfl, rfl, rfl, rfl, rfl, rfl, rfl⟩, by decide⟩

/-- C4: `IMUState::interpolate` sets roll, pitch, position and velocity of
the result to the linear blend `start * (1 - ratio) + end * ratio`,
componentwise for the vector fields. -/
theorem imu_interpolate_linear_fields (s e res : IMUState ℝ) (r : ℝ) :
    (IMUState.interpolate Real.pi s e r res).roll = s.roll * (1 - r) + e.roll * r ∧
    (IMUState.interpolate Real.pi s e r res).pitch = s.pitch * (1 - r) + e.pitch * r ∧
    (IMUState.interpolate Real.pi s e r res).position.x
      = s.position.x * (1 - r) + e.position.x * r ∧
    (IMUState.interpolate Real.pi s e r res).position.y
      = s.position.y * (1 - r) + e.position.y * r ∧
    (IMUState.interpolate Real.pi s e r res).position.z
      = s.position.z * (1 - r) + e.position.z * r ∧
    (IMUState.interpolate Real.pi s e r res).velocity.x
      = s.velocity.x * (1 - r) + e.velocity.x * r ∧
    (IMUState.interpolate Real.pi s e r res).velocity.y
      = s.velocity.y * (1 - r) + e.velocity.y * r ∧
    (IMUState.interpolate Real.pi s e r res).velocity.z
      = s.velocity.z * (1 - r) + e.velocity.z * r :=
  ⟨rfl, rfl, rfl, rfl, rfl, rfl, rfl, rfl⟩

/-- C5: `IMUState::interpolate` does not touch the acceleration and stamp
fields of the result: they keep whatever values the result held before. -/
theorem imu_interpolate_preserves_accel_stamp (s e res : IMUState ℝ) (r : ℝ) :
    (IMUState.interpolate Real.pi s e r res).acceleration = res.acceleration ∧
    (IMUState.interpolate Real.pi s e r res).stamp = res.stamp :=
  ⟨rfl, rfl⟩

/-- C3: yaw interpolates along the shorter arc. The three cases of the code
are exactly as claimed, and whenever both yaws are normalised to the interval
from -pi (exclusive) to pi (inclusive), the yaw difference exceeds pi in
magnitude, and the ratio lies in the unit interval, the interpolated yaw
stays within the short arc: its distance from the start yaw never exceeds the
short-arc length `2 * pi - |start.yaw - end.yaw|`, so the path never enters
the long arc. -/
theorem imu_interpolate_yaw_shortest_arc (s e res : IMUState ℝ) (r : ℝ) :
    (s.yaw - e.yaw > Real.pi →
      (IMUState.interpolate Real.pi s e r res).yaw
        = s.yaw * (1 - r) + (e.yaw + 2 * Real.pi) * r) ∧
    (s.yaw - e.yaw < -Real.pi →
      (IMUState.interpolate Real.pi s e r res).yaw
        = s.yaw * (1 - r) + (e.yaw - 2 * Real.pi) * r) ∧
    (-Real.pi ≤ s.yaw - e.yaw → s.yaw - e.yaw ≤ Real.pi →
      (IMUState.interpolate Real.pi s e r res).yaw
        = s.yaw * (1 - r) + e.yaw * r) ∧
    (-Real.pi < s.yaw → s.yaw ≤ Real.pi → -Real.pi < e.yaw → e.yaw ≤ Real.pi →
      0 ≤ r → r ≤ 1 → Real.pi < |s.yaw - e.yaw| →
      |(IMUState.interpolate Real.pi s e r res).yaw - s.yaw|
        ≤ 2 * Real.pi - |s.yaw - e.yaw|) := by
  have hpi := Real.pi_pos
  refine ⟨fun h => ?_, fun h => ?_, fun h1 h2 => ?_, ?_⟩
  · simp [IMUState.interpolate, h]
  · have h1 : ¬ (Real.pi < s.yaw - e.yaw) := by push_neg; linarith
    simp [IMUState.interpolate, h, h1]
  · have h3 : ¬ (Real.pi < s.yaw - e.yaw) := not_lt.mpr h2
    have h4 : ¬ (s.yaw - e.yaw < -Real.pi) := not_lt.mpr h1
    simp [IMUState.interpolate, h3, h4]
  · intro hs1 hs2 he1 he2 hr0 hr1 habs
    rcases lt_abs.mp habs with hgt | hlt
    · have hyaw : (IMUState.interpolate Real.pi s e r res).yaw
          = s.yaw * (1 - r) + (e.yaw + 2 * Real.pi) * r := by
        simp [IMUState.interpolate, hgt]
      have hd : s.yaw * (1 - r) + (e.yaw + 2 * Real.pi) * r - s.yaw
          = r * (e.yaw + 2 * Real.pi - s.yaw) := by ring
      have hpos : (0 : ℝ) ≤ e.yaw + 2 * Real.pi - s.yaw := by linarith
      rw [hyaw, hd, abs_of_nonneg (mul_nonneg hr0 hpos),
        abs_of_pos (lt_trans hpi hgt)]
      nlinarith [mul_nonneg (by linarith : (0:ℝ) ≤ 1 - r) hpos]
    · have hgt2 : s.yaw - e.yaw < -Real.pi := by linarith
      have h1 : ¬ (Real.pi < s.yaw - e.yaw) := by push_neg; linarith
      have hyaw : (IMUState.interpolate Real.pi s e r res).yaw
          = s.yaw * (1 - r) + (e.yaw - 2 * Real.pi) * r := by
        simp [IMUState.interpolate, hgt2, h1]
      have hd : s.yaw * (1 - r) + (e.yaw - 2 * Real.pi) * r - s.yaw
          = -(r * (s.yaw + 2 * Real.pi - e.yaw)) := by ring
      have hpos : (0 : ℝ) ≤ s.yaw + 2 * Real.pi - e.yaw := by linarith
      rw [hyaw, hd, abs_neg, abs_of_nonneg (mul_nonneg hr0 hpos),
        abs_of_neg (by linarith : s.yaw - e.yaw < 0)]
      nlinarith [mul_nonneg (by linarith : (0:ℝ) ≤ 1 - r) hpos]

/-- C3 (witness): yaw wrap scenario. With start yaw `pi - 0.1`, end yaw
`-pi + 0.1` and ratio one half, the difference exceeds pi and the
interpolated yaw is exactly pi (not 0). -/
theorem imu_interpolate_yaw_shortest_arc_witness :
    (withYaw (Real.pi - 0.1)).yaw - (withYaw (-Real.pi + 0.1)).yaw > Real.pi ∧
    (IMUState.interpolate Real.pi (withYaw (Real.pi - 0.1))
      (withYaw (-Real.pi + 0.1)) (1 / 2) (withYaw 0)).yaw = Real.pi := by
  have hpi := Real.pi_gt_three
  have hgt : (withYaw (Real.pi - 0.1)).yaw - (withYaw (-Real.pi + 0.1)).yaw
      > Real.pi := by
    simp only [withYaw]
    norm_num
    linarith
  refine ⟨hgt, ?_⟩
  have h := (imu_interpolate_yaw_shortest_arc (withYaw (Real.pi - 0.1))
    (withYaw (-Real.pi + 0.1)) (withYaw 0) (1 / 2)).1 hgt
  rw [h]
  simp only [withYaw]
  ring

end Loam
